import Mathlib

/-!
Verification of the PassBuddy distributed counting semaphore (EQWorks/passbuddy).

The development shallowly embeds the current revision of src/index.js
(the second PassBuddy class, lines 330-606): the Redis sorted set holding
the membership records, the server-side Lua acquisition script generated by
_genLuaScript (lines 397-434), the _acquire / _release helpers, and the
PassBuddy methods acquire / release / use / bind together with the
constructor defaulting logic.
-/

namespace PassBuddy

/-! ## The Redis sorted set holding one semaphore key

The store state for one `prefix-name` key is the sorted set of
(member uuid, score) pairs.  Scores are absolute expiry timestamps in
milliseconds (integers).  Only the operations the source issues are
modelled: ZREMRANGEBYSCORE key -inf max, ZADD, ZCARD, ZREM. -/

/-- One semaphore key: a list of (member, score) pairs, newest first.
`zadd` keeps members unique by construction. -/
abbrev ZSet := List (String × Int)

/-- ZREMRANGEBYSCORE key -inf maxScore: removes every member whose score is
at most `maxScore` (the -inf..maxScore range is inclusive at both ends). -/
def zremrangebyscoreUpTo (s : ZSet) (maxScore : Int) : ZSet :=
  s.filter (fun p => decide (maxScore < p.2))

/-- ZADD key score member: upserts `member` with the given `score`. -/
def zadd (s : ZSet) (score : Int) (member : String) : ZSet :=
  (member, score) :: s.filter (fun p => decide (p.1 ≠ member))

/-- ZREM key member: removes `member` if present. -/
def zrem (s : ZSet) (member : String) : ZSet :=
  s.filter (fun p => decide (p.1 ≠ member))

/-- ZCARD key: number of members. -/
def zcard (s : ZSet) : Nat := s.length

/-- ZSCORE-style membership view used in statements. -/
def hasMember (s : ZSet) (member : String) : Bool :=
  s.any (fun p => decide (p.1 = member))

/-! ## The acquisition script (src/index.js lines 397-434, `_genLuaScript`)

`_genLuaScript (prefix, name, uuid, capacity, TTL)` interpolates
`now = Date.now()`, `expired = now - TTL`, `expiry = now + TTL` into a Lua
script executed atomically by Redis.  `evalAcquireScript` is the semantics
of one such execution against the sorted set held at the key. -/

/-- The pair `{acquired, expiry}` the Lua script returns. -/
structure ScriptResult where
  acquired : Nat
  expiry : Int
  deriving Repr, DecidableEq

/-- Semantics of one atomic execution of the generated Lua script:
ZREMRANGEBYSCORE key -inf (now - TTL); ZADD key (now + TTL) uuid;
count := ZCARD key; if count > capacity then ZREM key uuid and return
{0, 0} else return {1, now + TTL}. -/
def evalAcquireScript (uuid : String) (capacity TTL now : Int) (s : ZSet) :
    ZSet × ScriptResult :=
  let expired := now - TTL
  let expiry := now + TTL
  let s1 := zremrangebyscoreUpTo s expired
  let s2 := zadd s1 expiry uuid
  let count := zcard s2
  if (count : Int) > capacity then
    (zrem s2 uuid, ⟨0, 0⟩)
  else
    (s2, ⟨1, expiry⟩)

/-- Spec-worded variant of the script used for comparison: identical to
`evalAcquireScript` except that step (1) removes only the entries whose
score is STRICTLY LESS THAN now - TTL, as the claim words it. -/
def evalAcquireScriptSweepLt (uuid : String) (capacity TTL now : Int) (s : ZSet) :
    ZSet × ScriptResult :=
  let expiry := now + TTL
  let s1 := s.filter (fun p => decide (now - TTL ≤ p.2))
  let s2 := zadd s1 expiry uuid
  let count := zcard s2
  if (count : Int) > capacity then
    (zrem s2 uuid, ⟨0, 0⟩)
  else
    (s2, ⟨1, expiry⟩)

/-! ## Interleavings of store mutations

Per the concurrency model, the only mutation paths for one key are atomic
executions of the acquisition script (by any instance, with its own uuid
and local clock) and single-member removal (ZREM issued by `_release`). -/

/-- One atomic mutation of a semaphore key. -/
inductive StoreOp where
  | script (uuid : String) (TTL now : Int)
  | removeMember (uuid : String)

/-- Effect of one atomic mutation on the key, for a fixed capacity. -/
def applyOp (capacity : Int) (s : ZSet) : StoreOp → ZSet
  | .script uuid TTL now => (evalAcquireScript uuid capacity TTL now s).1
  | .removeMember uuid => zrem s uuid

/-- State of the key after a finite interleaving of atomic mutations,
starting from the empty set (a fresh key). -/
def runOps (capacity : Int) (ops : List StoreOp) : ZSet :=
  ops.foldl (applyOp capacity) []

/-! ## Errors and one acquisition attempt (src/index.js lines 341-353, 439-458)

`_acquire` sends the script with `send_command` and inspects the reply:
a transport error is wrapped in a PassBuddyRedisError; a reply whose first
element is falsy (acquired = 0) becomes a PassBuddyCapacityError; otherwise
the `[acquired, expiry]` reply is returned. -/

/-- The two error classes of the source. -/
inductive PBError where
  | redisError (message : String)
  | capacityError (name : String)
  deriving Repr, DecidableEq

/-- `err instanceof PassBuddyCapacityError` (the retry guard, line 529). -/
def PBError.isCapacity : PBError → Bool
  | .capacityError _ => true
  | .redisError _ => false

/-- What one `send_command` round trip can yield: a transport error with a
message, or the script reply `[acquired, expiry]`. -/
inductive EvalOutcome where
  | err (message : String)
  | reply (acquired : Nat) (expiry : Int)

/-- `_acquire` (lines 439-458), given the round-trip outcome: wraps a
transport error as a redis error, turns a falsy `res[0]` into a capacity
error, and resolves with the reply otherwise. -/
def runAcquireAttempt (name : String) (outcome : EvalOutcome) :
    Except PBError (Nat × Int) :=
  match outcome with
  | .err msg =>
      .error (.redisError
        ("Redis error while attempting to acquire semaphore " ++ name ++ ": " ++ msg))
  | .reply acquired expiry =>
      if acquired = 0 then .error (.capacityError name)
      else .ok (acquired, expiry)

/-- A concrete round-trip schedule used as a witness input: the pool is at
capacity on the first attempt and the transport fails on the second. -/
def capacityThenBoom : Nat → EvalOutcome
  | 0 => .reply 0 0
  | _ + 1 => .err "boom"

/-! ## The coordinator and the retry loop (src/index.js lines 483-556)

Local state is the single mutable field `_isHeldUntil`.  `acquire(attempts)`
runs one attempt; on success it stores the returned expiry; on a capacity
error with `attempts < maxAttempts` it waits `retryInterval` and recurses
with `attempts + 1`; any other failure (or attempt exhaustion) is rethrown.
Successive round trips are supplied by an oracle indexed by the attempt
number. -/

/-- Local coordinator state: the `_isHeldUntil` field (milliseconds). -/
structure PBState where
  isHeldUntil : Int
  deriving Repr, DecidableEq

/-- Trace of one logical `acquire()` call: final local state, number of
store round trips performed, total time spent suspended between attempts,
and the settled result. -/
structure AcquireRun where
  state : PBState
  attemptCount : Nat
  totalDelay : Nat
  result : Except PBError Bool
  deriving Repr

/-- `PassBuddy.acquire(attempts)` (lines 518-537): the recursive retry
loop, with round trip number `n` answered by `oracle n`. -/
def acquireFrom (name : String) (oracle : Nat → EvalOutcome)
    (maxAttempts retryInterval : Nat) (attempts : Nat) (st : PBState) :
    AcquireRun :=
  match runAcquireAttempt name (oracle attempts) with
  | .ok (_, isHeldUntil) => ⟨⟨isHeldUntil⟩, 1, 0, .ok true⟩
  | .error e =>
      if _h : attempts < maxAttempts ∧ e.isCapacity = true then
        let r := acquireFrom name oracle maxAttempts retryInterval (attempts + 1) st
        ⟨r.state, r.attemptCount + 1, r.totalDelay + retryInterval, r.result⟩
      else
        ⟨st, 1, 0, .error e⟩
termination_by maxAttempts - attempts
decreasing_by omega

/-- `acquire()` as called externally, with the default `attempts = 0`. -/
def acquire (name : String) (oracle : Nat → EvalOutcome)
    (maxAttempts retryInterval : Nat) (st : PBState) : AcquireRun :=
  acquireFrom name oracle maxAttempts retryInterval 0 st

/-- The `isHeld` getter (lines 509-511): `_isHeldUntil > Date.now()`. -/
def isHeld (st : PBState) (now : Int) : Bool :=
  st.isHeldUntil > now

/-- `use()` (lines 554-556): `this.isHeld ? true : this.acquire()`. -/
def use (name : String) (oracle : Nat → EvalOutcome)
    (maxAttempts retryInterval : Nat) (st : PBState) (now : Int) : AcquireRun :=
  if isHeld st now then ⟨st, 0, 0, .ok true⟩
  else acquire name oracle maxAttempts retryInterval st

/-! ## release (src/index.js lines 462-472, 543-548)

`_release` issues ZREM on the key with the uuid of this instance; the member
count ZREM reports is ignored and an absent member is not an error.
`release()` then sets `_isHeldUntil = 0` and resolves with `true`. -/

/-- Trace of one `release()` call: key state after the ZREM, local state
after the call, and the resolved value. -/
structure ReleaseRun where
  store : ZSet
  state : PBState
  result : Bool
  deriving Repr, DecidableEq

/-- `release()` on a reachable store round trip: ZREM the member, reset
`_isHeldUntil` to 0, resolve `true`. -/
def release (store : ZSet) (uuid : String) (_st : PBState) : ReleaseRun :=
  ⟨zrem store uuid, ⟨0⟩, true⟩

/-! ## bind (src/index.js lines 563-574)

The wrapper returned by `bind(callback, releaseOnComplete)` runs
`await this.use()`, then returns `callback(...args)`; the `finally` block
calls `this.release()` exactly when `releaseOnComplete` is set, on every
exit path.  The wrapped action either produces a value or fails with its
own error type; the wrapper never alters an action failure. -/

/-- Observable calls the wrapper makes, in order. -/
inductive BindEvent where
  | useCall
  | actionCall
  | releaseCall
  deriving Repr, DecidableEq

/-- Failure of a wrapper invocation: either `use()` failed (a semaphore
error) or the wrapped action failed with its own error. -/
inductive BindFailure (ε : Type) where
  | fromUse (e : PBError)
  | fromAction (e : ε)
  deriving Repr, DecidableEq

/-- One invocation of the wrapper produced by `bind`, given the result of
`use()` and the outcome of the wrapped action itself: the ordered call trace and
the settled result. -/
def bindInvoke {ε β : Type} (useResult : Except PBError Bool)
    (action : Except ε β) (releaseOnComplete : Bool) :
    List BindEvent × Except (BindFailure ε) β :=
  match useResult with
  | .error e =>
      ([BindEvent.useCall] ++ (if releaseOnComplete then [BindEvent.releaseCall] else []),
        .error (.fromUse e))
  | .ok _ =>
      ([BindEvent.useCall, BindEvent.actionCall]
          ++ (if releaseOnComplete then [BindEvent.releaseCall] else []),
        match action with
        | .error e => .error (.fromAction e)
        | .ok v => .ok v)

/-! ## Constructor defaulting (src/index.js lines 483-495)

Every option is filled with the JavaScript `||` operator:
`options.x || defaultX`.  `||` replaces not only a missing option but any
falsy supplied value — the number 0 and the empty string included.  No
validation is performed and the constructor cannot throw. -/

/-- The recognized constructor options (store-connection options aside);
`none` models an omitted key. -/
structure PBOptions where
  keyPfx : Option String := none
  name : Option String := none
  capacity : Option Int := none
  TTL : Option Int := none
  maxAttempts : Option Int := none
  retryInterval : Option Int := none

/-- JavaScript `v || d` for a possibly-missing number: 0 is falsy. -/
def jsOrNum (v : Option Int) (d : Int) : Int :=
  match v with
  | none => d
  | some x => if x = 0 then d else x

/-- JavaScript `v || d` for a possibly-missing string: "" is falsy. -/
def jsOrStr (v : Option String) (d : String) : String :=
  match v with
  | none => d
  | some s => if s = "" then d else s

/-- The configuration fields the constructor assigns. -/
structure PBConfig where
  keyPfx : String
  name : String
  capacity : Int
  TTL : Int
  maxAttempts : Int
  retryInterval : Int
  deriving Repr, DecidableEq

/-- The constructor body (lines 483-495): pure defaulting via `||`, no
validation, always succeeds. -/
def construct (o : PBOptions) : PBConfig :=
  { keyPfx := jsOrStr o.keyPfx "passbuddy"
    name := jsOrStr o.name "semaphore"
    capacity := jsOrNum o.capacity 10
    TTL := jsOrNum o.TTL 5000
    maxAttempts := jsOrNum o.maxAttempts 5
    retryInterval := jsOrNum o.retryInterval 500 }

/-! ## Shared lemmas about the sorted-set operations -/

theorem length_zremrangebyscoreUpTo_le (s : ZSet) (m : Int) :
    (zremrangebyscoreUpTo s m).length ≤ s.length :=
  List.length_filter_le _ s

theorem length_zrem_le (s : ZSet) (u : String) :
    (zrem s u).length ≤ s.length :=
  List.length_filter_le _ s

theorem zrem_zadd_self (s : ZSet) (e : Int) (u : String) :
    zrem (zadd s e u) u = zrem s u := by
  simp [zadd, zrem, List.filter_filter]

theorem length_zadd_le (s : ZSet) (e : Int) (u : String) :
    (zadd s e u).length ≤ s.length + 1 := by
  simpa [zadd] using Nat.succ_le_succ (List.length_filter_le _ s)

theorem hasMember_zrem_self (s : ZSet) (u : String) :
    hasMember (zrem s u) u = false := by
  simp only [hasMember, zrem, List.any_eq_false, List.mem_filter, decide_eq_true_eq]
  intro p hp
  simpa using hp.2

theorem zrem_of_not_hasMember (s : ZSet) (u : String)
    (h : hasMember s u = false) : zrem s u = s := by
  rw [zrem, List.filter_eq_self]
  intro p hp
  simp only [hasMember, List.any_eq_false, decide_eq_true_eq] at h
  simpa using h p hp

theorem zrem_zrem_self (s : ZSet) (u : String) :
    zrem (zrem s u) u = zrem s u := by
  simp [zrem, List.filter_filter]

/-- Each atomic mutation keeps the member count at or below the capacity. -/
theorem applyOp_length_le (C : Int) (s : ZSet) (op : StoreOp)
    (hs : (s.length : Int) ≤ C) : ((applyOp C s op).length : Int) ≤ C := by
  cases op with
  | removeMember u =>
      have := length_zrem_le s u
      simp only [applyOp]
      omega
  | script u TTL now =>
      simp only [applyOp, evalAcquireScript]
      have h1 := length_zremrangebyscoreUpTo_le s (now - TTL)
      by_cases hc :
          ((zcard (zadd (zremrangebyscoreUpTo s (now - TTL)) (now + TTL) u) : Int) > C)
      · rw [if_pos hc, zrem_zadd_self]
        have h2 := length_zrem_le (zremrangebyscoreUpTo s (now - TTL)) u
        dsimp only
        omega
      · rw [if_neg hc]
        simp only [zcard, not_lt] at hc
        dsimp only
        omega

/-- Claim C1: for any capacity C, after every execution of the atomic
acquisition script against one semaphore key, at most C membership records
exist in that set; since every finite interleaving of atomic script
executions (from any instances, with any clocks and TTLs) and single-member
removals is itself such a sequence, no reachable instant shows more than C
coexisting members. -/
theorem capacityNeverExceeded (C : Int) (hC : 0 ≤ C) (ops : List StoreOp) :
    ((runOps C ops).length : Int) ≤ C := by
  suffices h : ∀ (l : List StoreOp) (s : ZSet),
      (s.length : Int) ≤ C → (((l.foldl (applyOp C) s).length : Int) ≤ C) by
    exact h ops [] (by simpa using hC)
  intro l
  induction l with
  | nil => intro s hs; simpa using hs
  | cons op rest ih =>
      intro s hs
      exact ih (applyOp C s op) (applyOp_length_le C s op hs)

/-- Witness for C1: a concrete interleaving of three concurrent
acquisitions at capacity 2 leaves at most 2 members. -/
theorem capacityNeverExceeded_witness :
    (0 : Int) ≤ 2
    ∧ ((runOps 2 [StoreOp.script "a" 50 100, StoreOp.script "b" 50 100,
        StoreOp.script "c" 50 105, StoreOp.removeMember "a",
        StoreOp.script "c" 50 106]).length : Int) ≤ 2 :=
  ⟨by decide,
    capacityNeverExceeded 2 (by decide)
      [StoreOp.script "a" 50 100, StoreOp.script "b" 50 100,
        StoreOp.script "c" 50 105, StoreOp.removeMember "a",
        StoreOp.script "c" 50 106]⟩

/-- Claim C2, counterexample: the script as the claim words it (step 1
removes only the entries with score STRICTLY below now - TTL) disagrees
with the generated script, which issues ZREMRANGEBYSCORE key -inf
(now - TTL) and therefore also removes an entry sitting exactly on the
boundary score now - TTL.  With now = 100, TTL = 50 and a member at score
50, the code removes it while the claimed procedure keeps it. -/
theorem acquireScriptSteps_cex :
    evalAcquireScript "b" 10 50 100 [("a", 50)]
      ≠ evalAcquireScriptSweepLt "b" 10 50 100 [("a", 50)] := by
  decide

/-- Claim C2 as amended (sweep boundary included): one execution of the
acquisition script (i) removes every entry whose score is AT MOST
now - TTL, (ii) keeps every other entry of a different member, and
(iii) either reports (1, now + TTL) with the caller upserted at score
now + TTL and the final count within capacity, or reports (0, 0) with the
caller absent because the post-upsert count exceeded capacity. -/
theorem acquireScriptSteps (uuid : String) (capacity TTL now : Int)
    (s : ZSet) (hTTL : 0 < TTL) :
    (∀ p ∈ s, p.2 ≤ now - TTL → p ∉ (evalAcquireScript uuid capacity TTL now s).1)
    ∧ (∀ p ∈ s, now - TTL < p.2 → p.1 ≠ uuid →
        p ∈ (evalAcquireScript uuid capacity TTL now s).1)
    ∧ (((evalAcquireScript uuid capacity TTL now s).2.acquired = 1
          ∧ (evalAcquireScript uuid capacity TTL now s).2.expiry = now + TTL
          ∧ (uuid, now + TTL) ∈ (evalAcquireScript uuid capacity TTL now s).1
          ∧ ((zcard (evalAcquireScript uuid capacity TTL now s).1 : Int) ≤ capacity))
       ∨ ((evalAcquireScript uuid capacity TTL now s).2.acquired = 0
          ∧ (evalAcquireScript uuid capacity TTL now s).2.expiry = 0
          ∧ hasMember (evalAcquireScript uuid capacity TTL now s).1 uuid = false
          ∧ capacity <
              (zcard (zadd (zremrangebyscoreUpTo s (now - TTL)) (now + TTL) uuid) : Int))) := by
  simp only [evalAcquireScript]
  by_cases hc :
      ((zcard (zadd (zremrangebyscoreUpTo s (now - TTL)) (now + TTL) uuid) : Int) > capacity)
  · rw [if_pos hc, zrem_zadd_self]
    dsimp only
    refine ⟨?_, ?_, Or.inr ⟨rfl, rfl, hasMember_zrem_self _ uuid, hc⟩⟩
    · intro p hp hscore hmem
      rw [zrem, List.mem_filter] at hmem
      rw [zremrangebyscoreUpTo, List.mem_filter] at hmem
      have := hmem.1.2
      simp only [decide_eq_true_eq] at this
      omega
    · intro p hp hscore hne
      rw [zrem, List.mem_filter, zremrangebyscoreUpTo, List.mem_filter]
      exact ⟨⟨hp, by simpa using hscore⟩, by simpa using hne⟩
  · rw [if_neg hc]
    dsimp only
    refine ⟨?_, ?_, Or.inl ⟨rfl, rfl, by simp [zadd], by simpa [zcard, not_lt] using hc⟩⟩
    · intro p hp hscore hmem
      rw [zadd, List.mem_cons] at hmem
      rcases hmem with hmem | hmem
      · have : p.2 = now + TTL := by rw [hmem]
        omega
      · rw [List.mem_filter, zremrangebyscoreUpTo, List.mem_filter] at hmem
        have := hmem.1.2
        simp only [decide_eq_true_eq] at this
        omega
    · intro p hp hscore hne
      rw [zadd, List.mem_cons]
      right
      rw [List.mem_filter, zremrangebyscoreUpTo, List.mem_filter]
      exact ⟨⟨hp, by simpa using hscore⟩, by simpa using hne⟩

/-- Witness for the amended C2 at a concrete input: with now = 100,
TTL = 50, capacity 10 and one live member, the boundary entry at score 50
is removed, the live entry survives, and the caller acquires. -/
theorem acquireScriptSteps_witness :
    (0 : Int) < 50
    ∧ (("a", (50 : Int)) ∉ (evalAcquireScript "b" 10 50 100 [("a", 50), ("c", 80)]).1)
    ∧ (("c", (80 : Int)) ∈ (evalAcquireScript "b" 10 50 100 [("a", 50), ("c", 80)]).1) :=
  ⟨by decide,
    (acquireScriptSteps "b" 10 50 100 [("a", 50), ("c", 80)] (by decide)).1
      ("a", 50) (by decide) (by decide),
    (acquireScriptSteps "b" 10 50 100 [("a", 50), ("c", 80)] (by decide)).2.1
      ("c", 80) (by decide) (by decide) (by decide)⟩

/-- Claim C3 is the intended behaviour but the code misses it: scores are
absolute expiry timestamps (now + TTL at insertion), yet the sweep removes
only scores at most now - TTL, so a member whose expiry is already in the
past survives the next execution.  Concretely, the §8 spec scenario:
capacity 2, TTL 50; members a and b hold expiries 50; at now = 60 both are
expired (50 < 60) yet the script keeps both, and the caller c is even
denied instead of acquiring. -/
theorem expiredMembersSurviveSweep :
    (50 : Int) < 60
    ∧ evalAcquireScript "c" 2 50 60 [("a", 50), ("b", 50)]
        = ([("a", 50), ("b", 50)], ⟨0, 0⟩) := by
  decide

/-! ## Lemmas about the retry loop -/

/-- When every round trip reports the pool at capacity, the loop started at
attempt k performs maxAttempts - k + 1 further round trips, sleeps
retryInterval between consecutive ones, leaves the local state alone and
settles on the capacity error. -/
theorem acquireFrom_allCapacity (name : String) (oracle : Nat → EvalOutcome)
    (M R : Nat)
    (h : ∀ n, runAcquireAttempt name (oracle n) = .error (.capacityError name)) :
    ∀ (d k : Nat) (st : PBState), M - k = d →
      acquireFrom name oracle M R k st
        = ⟨st, d + 1, d * R, .error (.capacityError name)⟩ := by
  intro d
  induction d with
  | zero =>
      intro k st hd
      rw [acquireFrom, h k]
      have hk : ¬ (k < M ∧ (PBError.capacityError name).isCapacity = true) := by
        intro hcontra
        omega
      dsimp only
      rw [dif_neg hk]
      simp
  | succ d ih =>
      intro k st hd
      rw [acquireFrom, h k]
      have hk : k < M ∧ (PBError.capacityError name).isCapacity = true :=
        ⟨by omega, rfl⟩
      dsimp only
      rw [dif_pos hk, ih (k + 1) st (by omega)]
      dsimp only
      rw [Nat.succ_mul]

/-- Claim C4: against a pool permanently at capacity, acquire() performs
exactly maxAttempts + 1 round trips (the initial attempt plus maxAttempts
retries), spends maxAttempts * retryInterval suspended between consecutive
attempts, and settles on the capacity-exceeded error. -/
theorem acquireExhaustsRetries (name : String) (oracle : Nat → EvalOutcome)
    (M R : Nat) (st : PBState)
    (h : ∀ n, runAcquireAttempt name (oracle n) = .error (.capacityError name)) :
    acquire name oracle M R st
      = ⟨st, M + 1, M * R, .error (.capacityError name)⟩ := by
  rw [acquire, acquireFrom_allCapacity name oracle M R h M 0 st (by omega)]

/-- Witness for C4 at maxAttempts = 3, retryInterval = 100: exactly 4
attempts and 300 ms of waiting before the capacity failure. -/
theorem acquireExhaustsRetries_witness :
    acquire "semaphore" (fun _ => .reply 0 0) 3 100 ⟨7⟩
      = ⟨⟨7⟩, 4, 300, .error (.capacityError "semaphore")⟩ :=
  acquireExhaustsRetries "semaphore" (fun _ => .reply 0 0) 3 100 ⟨7⟩ (fun _ => rfl)

/-- A failing run of the retry loop never touches the local state. -/
theorem acquireFrom_state_of_error (name : String) (oracle : Nat → EvalOutcome)
    (M R : Nat) :
    ∀ (d k : Nat) (st : PBState) (e : PBError),
      M - k = d →
      (acquireFrom name oracle M R k st).result = .error e →
      (acquireFrom name oracle M R k st).state = st := by
  intro d
  induction d with
  | zero =>
      intro k st e hd hres
      rw [acquireFrom] at hres ⊢
      cases hout : runAcquireAttempt name (oracle k) with
      | error e₀ =>
          have hk : ¬ (k < M ∧ e₀.isCapacity = true) := by
            intro hcontra
            omega
          dsimp only
          rw [dif_neg hk]
      | ok v =>
          rw [hout] at hres
          simp at hres
  | succ d ih =>
      intro k st e hd hres
      rw [acquireFrom] at hres ⊢
      cases hout : runAcquireAttempt name (oracle k) with
      | error e₀ =>
          rw [hout] at hres
          dsimp only at hres ⊢
          by_cases hk : k < M ∧ e₀.isCapacity = true
          · rw [dif_pos hk] at hres ⊢
            exact ih (k + 1) st e (by omega) hres
          · rw [dif_neg hk]
      | ok v =>
          rw [hout] at hres
          simp at hres

/-- Claim C10: whenever acquire() fails — with the terminal capacity error
or with a store error — the local field isHeldUntil is exactly what it was
before the call; only a successful acquisition updates it. -/
theorem failedAcquireLeavesStateUnchanged (name : String)
    (oracle : Nat → EvalOutcome) (M R : Nat) (st : PBState) (e : PBError)
    (h : (acquire name oracle M R st).result = .error e) :
    (acquire name oracle M R st).state = st :=
  acquireFrom_state_of_error name oracle M R M 0 st e (by omega) h

/-- Witness for C10: an exhausted run at maxAttempts = 0 leaves the held
deadline at its prior value 7. -/
theorem failedAcquireLeavesStateUnchanged_witness :
    (acquire "semaphore" (fun _ => .reply 0 0) 0 500 ⟨7⟩).state = ⟨7⟩ :=
  failedAcquireLeavesStateUnchanged "semaphore" (fun _ => .reply 0 0) 0 500 ⟨7⟩
    (.capacityError "semaphore")
    (by rw [acquire,
          acquireFrom_allCapacity "semaphore" (fun _ => .reply 0 0) 0 500
            (fun _ => rfl) 0 0 ⟨7⟩ rfl])

/-- The retry loop always performs at least one round trip and at most
maxAttempts - attempts + 1 of them. -/
theorem acquireFrom_attemptCount_bounds (name : String)
    (oracle : Nat → EvalOutcome) (M R : Nat) :
    ∀ (d k : Nat) (st : PBState), M - k = d →
      1 ≤ (acquireFrom name oracle M R k st).attemptCount
      ∧ (acquireFrom name oracle M R k st).attemptCount ≤ d + 1 := by
  intro d
  induction d with
  | zero =>
      intro k st hd
      rw [acquireFrom]
      cases runAcquireAttempt name (oracle k) with
      | ok v => exact ⟨le_refl 1, le_refl 1⟩
      | error e₀ =>
          have hk : ¬ (k < M ∧ e₀.isCapacity = true) := by
            intro hcontra
            omega
          dsimp only
          rw [dif_neg hk]
          exact ⟨le_refl 1, le_refl 1⟩
  | succ d ih =>
      intro k st hd
      rw [acquireFrom]
      cases runAcquireAttempt name (oracle k) with
      | ok v => exact ⟨le_refl 1, by dsimp only; omega⟩
      | error e₀ =>
          dsimp only
          by_cases hk : k < M ∧ e₀.isCapacity = true
          · rw [dif_pos hk]
            have := ih (k + 1) st (by omega)
            dsimp only
            omega
          · rw [dif_neg hk]
            exact ⟨le_refl 1, by dsimp only; omega⟩

/-- When the first round trip of the loop does not settle on a capacity
error, no retry happens: exactly one attempt. -/
theorem acquireFrom_attemptCount_one (name : String)
    (oracle : Nat → EvalOutcome) (M R k : Nat) (st : PBState)
    (h : ∀ e, runAcquireAttempt name (oracle k) = .error e → e.isCapacity = false) :
    (acquireFrom name oracle M R k st).attemptCount = 1 := by
  rw [acquireFrom]
  cases hout : runAcquireAttempt name (oracle k) with
  | ok v => rfl
  | error e₀ =>
      have hk : ¬ (k < M ∧ e₀.isCapacity = true) := by
        rintro ⟨-, hcap⟩
        rw [h e₀ hout] at hcap
        exact Bool.false_ne_true hcap
      dsimp only
      rw [dif_neg hk]

/-- An attempt that settles on a capacity-class error settles on exactly
the capacity error carrying this semaphore name. -/
theorem runAcquireAttempt_error_capacity (name : String) (o : EvalOutcome)
    (e : PBError) (h : runAcquireAttempt name o = .error e)
    (hc : e.isCapacity = true) : e = .capacityError name := by
  cases o with
  | err msg =>
      simp only [runAcquireAttempt] at h
      injection h with h'
      rw [← h'] at hc
      simp [PBError.isCapacity] at hc
  | reply acquired expiry =>
      simp only [runAcquireAttempt] at h
      by_cases hz : acquired = 0
      · rw [if_pos hz] at h
        injection h with h'
        exact h'.symm
      · rw [if_neg hz] at h
        exact absurd h (by simp)

/-- Full trace of the retry loop: every round trip that was followed by
another settled on the capacity error, and the settled result of the run
is exactly the mapped outcome of the last round trip performed. -/
theorem acquireFrom_trace (name : String) (oracle : Nat → EvalOutcome)
    (M R : Nat) :
    ∀ (d k : Nat) (st : PBState), M - k = d →
      (∀ j, j + 1 < (acquireFrom name oracle M R k st).attemptCount →
          runAcquireAttempt name (oracle (k + j)) = .error (.capacityError name))
      ∧ ((acquireFrom name oracle M R k st).result
          = match runAcquireAttempt name
              (oracle (k + (acquireFrom name oracle M R k st).attemptCount - 1)) with
            | .ok _ => .ok true
            | .error e => .error e) := by
  intro d
  induction d with
  | zero =>
      intro k st hd
      rw [acquireFrom]
      cases hout : runAcquireAttempt name (oracle k) with
      | ok v =>
          dsimp only
          refine ⟨fun j hj => absurd hj (by omega), ?_⟩
          rw [Nat.add_sub_cancel, hout]
      | error e₀ =>
          have hk : ¬ (k < M ∧ e₀.isCapacity = true) := by
            intro hcontra
            omega
          dsimp only
          rw [dif_neg hk]
          dsimp only
          refine ⟨fun j hj => absurd hj (by omega), ?_⟩
          rw [Nat.add_sub_cancel, hout]
  | succ d ih =>
      intro k st hd
      rw [acquireFrom]
      cases hout : runAcquireAttempt name (oracle k) with
      | ok v =>
          dsimp only
          refine ⟨fun j hj => absurd hj (by omega), ?_⟩
          rw [Nat.add_sub_cancel, hout]
      | error e₀ =>
          dsimp only
          by_cases hk : k < M ∧ e₀.isCapacity = true
          · rw [dif_pos hk]
            dsimp only
            obtain ⟨ih1, ih2⟩ := ih (k + 1) st (by omega)
            constructor
            · intro j hj
              cases j with
              | zero =>
                  rw [Nat.add_zero, hout,
                    runAcquireAttempt_error_capacity name (oracle k) e₀ hout hk.2]
              | succ j' =>
                  have harith : k + (j' + 1) = k + 1 + j' := by omega
                  rw [harith]
                  exact ih1 j' (by omega)
            · have hrec := (acquireFrom_attemptCount_bounds name oracle M R
                (M - (k + 1)) (k + 1) st rfl).1
              have harith :
                  k + ((acquireFrom name oracle M R (k + 1) st).attemptCount + 1) - 1
                    = k + 1 + (acquireFrom name oracle M R (k + 1) st).attemptCount - 1 := by
                omega
              rw [harith]
              exact ih2
          · rw [dif_neg hk]
            dsimp only
            refine ⟨fun j hj => absurd hj (by omega), ?_⟩
            rw [Nat.add_sub_cancel, hout]

/-- Claim C8: over one whole acquire() call, every retry transition was
triggered by the capacity error — each round trip followed by another
settled on it — and any transport failure among the performed attempts is
the final attempt (no retry ever follows it) whose wrapped redis error
(message naming the operation and semaphore) is exactly what the call
propagates. -/
theorem storeErrorsNeverRetried (name : String) (oracle : Nat → EvalOutcome)
    (M R : Nat) (st : PBState) :
    (∀ j, j + 1 < (acquire name oracle M R st).attemptCount →
        runAcquireAttempt name (oracle j) = .error (.capacityError name))
    ∧ (∀ j msg, oracle j = .err msg →
        j < (acquire name oracle M R st).attemptCount →
        j + 1 = (acquire name oracle M R st).attemptCount
        ∧ (acquire name oracle M R st).result
            = .error (.redisError
                ("Redis error while attempting to acquire semaphore "
                  ++ name ++ ": " ++ msg))) := by
  obtain ⟨h1, h2⟩ := acquireFrom_trace name oracle M R M 0 st (by omega)
  rw [acquire]
  constructor
  · intro j hj
    have := h1 j hj
    rwa [Nat.zero_add] at this
  · intro j msg hjmsg hjlt
    have hlast : j + 1 = (acquireFrom name oracle M R 0 st).attemptCount := by
      by_contra hne
      have hjlt2 : j + 1 < (acquireFrom name oracle M R 0 st).attemptCount := by
        omega
      have hcap := h1 j hjlt2
      rw [Nat.zero_add, hjmsg] at hcap
      simp [runAcquireAttempt] at hcap
    refine ⟨hlast, ?_⟩
    rw [h2]
    have hidx : 0 + (acquireFrom name oracle M R 0 st).attemptCount - 1 = j := by
      omega
    rw [hidx, hjmsg]
    rfl

/-- Witness for C8: a capacity failure on the first round trip and a
transport failure on the second — the transport failure is final (2
attempts) and its wrapped form is the settled error. -/
theorem storeErrorsNeverRetried_witness :
    1 + 1 = (acquire "semaphore" capacityThenBoom 5 500 ⟨7⟩).attemptCount
    ∧ (acquire "semaphore" capacityThenBoom 5 500 ⟨7⟩).result
        = .error (.redisError
            "Redis error while attempting to acquire semaphore semaphore: boom") := by
  have hlt : 1 < (acquire "semaphore" capacityThenBoom 5 500 ⟨7⟩).attemptCount := by
    rw [acquire, acquireFrom]
    have h0 : runAcquireAttempt "semaphore" (capacityThenBoom 0)
        = .error (.capacityError "semaphore") := rfl
    rw [h0]
    dsimp only
    rw [dif_pos (show (0 < 5 ∧ (PBError.capacityError "semaphore").isCapacity = true)
      from ⟨by omega, rfl⟩)]
    have hrec := (acquireFrom_attemptCount_bounds "semaphore" capacityThenBoom
      5 500 4 1 ⟨7⟩ rfl).1
    dsimp only
    simp only [Nat.zero_add]
    omega
  exact (storeErrorsNeverRetried "semaphore" capacityThenBoom 5 500 ⟨7⟩).2
    1 "boom" rfl hlt

/-- The retry loop performs exactly one round trip precisely when no retry
transition can fire at its entry attempt: either the attempt index is
already at or past maxAttempts, or the first round trip does not settle on
a capacity error. -/
theorem acquireFrom_attemptCount_eq_one_iff (name : String)
    (oracle : Nat → EvalOutcome) (M R k : Nat) (st : PBState) :
    (acquireFrom name oracle M R k st).attemptCount = 1
      ↔ (¬ k < M
          ∨ ∀ e, runAcquireAttempt name (oracle k) = .error e →
              e.isCapacity = false) := by
  rw [acquireFrom]
  cases hout : runAcquireAttempt name (oracle k) with
  | ok v =>
      constructor
      · intro _
        right
        intro e he
        exact absurd he (by simp)
      · intro _
        rfl
  | error e₀ =>
      dsimp only
      by_cases hk : k < M ∧ e₀.isCapacity = true
      · rw [dif_pos hk]
        dsimp only
        have hrec := (acquireFrom_attemptCount_bounds name oracle M R
          (M - (k + 1)) (k + 1) st rfl).1
        constructor
        · intro h1
          omega
        · rintro (hnm | hcap)
          · exact absurd hk.1 hnm
          · have hfalse := hcap e₀ rfl
            rw [hk.2] at hfalse
            exact absurd hfalse (by simp)
      · rw [dif_neg hk]
        dsimp only
        constructor
        · intro _
          by_cases hkm : k < M
          · right
            intro e he
            injection he with he'
            rw [← he']
            have hnc : ¬ e₀.isCapacity = true := fun hc => hk ⟨hkm, hc⟩
            simpa using hnc
          · left
            exact hkm
        · intro _
          rfl

/-- Claim C7, counterexample: with the permit not held locally and the pool
at capacity, use() does not perform exactly one acquisition attempt — it
delegates to acquire(), whose retry loop here makes 2 round trips for
maxAttempts = 1. -/
theorem useSingleAttempt_cex :
    isHeld ⟨0⟩ 0 = false
    ∧ (use "semaphore" (fun _ => .reply 0 0) 1 100 ⟨0⟩ 0).attemptCount = 2 := by
  constructor
  · rfl
  · rw [use]
    rw [if_neg (by decide)]
    rw [acquire, acquireFrom_allCapacity "semaphore" (fun _ => .reply 0 0) 1 100
      (fun _ => rfl) 1 0 ⟨0⟩ rfl]

/-- Claim C7 as amended: when the local state reports the permit held
(isHeldUntil strictly in the future), use() succeeds at once with no store
round trip; otherwise it delegates to the single acquire() call, which
performs at least 1 and at most maxAttempts + 1 acquisition attempts, and
performs exactly one precisely when maxAttempts = 0 or its first attempt
does not settle on a capacity error. -/
theorem useNoRoundTripWhenHeld (name : String) (oracle : Nat → EvalOutcome)
    (M R : Nat) (st : PBState) (now : Int) :
    (isHeld st now = true →
      use name oracle M R st now = ⟨st, 0, 0, .ok true⟩)
    ∧ (isHeld st now = false →
        use name oracle M R st now = acquire name oracle M R st
        ∧ 1 ≤ (use name oracle M R st now).attemptCount
        ∧ (use name oracle M R st now).attemptCount ≤ M + 1
        ∧ ((use name oracle M R st now).attemptCount = 1
            ↔ (M = 0
                ∨ ∀ e, runAcquireAttempt name (oracle 0) = .error e →
                    e.isCapacity = false))) := by
  constructor
  · intro hheld
    rw [use, if_pos hheld]
  · intro hnot
    have huse : use name oracle M R st now = acquire name oracle M R st := by
      rw [use, if_neg (by rw [hnot]; exact Bool.false_ne_true)]
    have hbounds := acquireFrom_attemptCount_bounds name oracle M R M 0 st (by omega)
    refine ⟨huse, ?_, ?_, ?_⟩
    · rw [huse]
      exact hbounds.1
    · rw [huse]
      exact hbounds.2
    · rw [huse, acquire,
        acquireFrom_attemptCount_eq_one_iff name oracle M R 0 st]
      have hM : ¬ 0 < M ↔ M = 0 := by omega
      rw [hM]

/-- Witness for the amended C7: a held permit answers locally; a not-held
permit with a reachable store acquires in one round trip; and at
maxAttempts = 0 even a capacity failure yields exactly one attempt. -/
theorem useNoRoundTripWhenHeld_witness :
    (use "semaphore" (fun _ => .reply 1 400) 5 500 ⟨300⟩ 200).attemptCount = 0
    ∧ (use "semaphore" (fun _ => .reply 1 400) 5 500 ⟨0⟩ 200).attemptCount = 1
    ∧ (use "semaphore" (fun _ => .reply 0 0) 0 500 ⟨0⟩ 200).attemptCount = 1 :=
  ⟨by
    rw [(useNoRoundTripWhenHeld "semaphore" (fun _ => .reply 1 400) 5 500 ⟨300⟩ 200).1 rfl],
   ((useNoRoundTripWhenHeld "semaphore" (fun _ => .reply 1 400) 5 500 ⟨0⟩ 200).2
      rfl).2.2.2.mpr
     (Or.inr (fun e he => by simp [runAcquireAttempt] at he)),
   ((useNoRoundTripWhenHeld "semaphore" (fun _ => .reply 0 0) 0 500 ⟨0⟩ 200).2
      rfl).2.2.2.mpr (Or.inl rfl)⟩

/-- Claim C5: each invocation of the wrapper produced by bind calls use()
first, then runs the wrapped action; release() happens afterward — last,
and on the failing exit path too — exactly when releaseOnComplete is set;
an action failure is re-raised unchanged and an action value is returned
unchanged. -/
theorem bindReleaseIffFlag {ε β : Type} (u : Except PBError Bool)
    (a : Except ε β) (flag : Bool) :
    ((bindInvoke u a flag).1.head? = some BindEvent.useCall)
    ∧ ((∃ v, u = .ok v) →
        (bindInvoke u a flag).1.take 2 = [BindEvent.useCall, BindEvent.actionCall])
    ∧ ((BindEvent.releaseCall ∈ (bindInvoke u a flag).1) ↔ flag = true)
    ∧ (flag = true → (bindInvoke u a flag).1.getLast? = some BindEvent.releaseCall)
    ∧ (∀ e, a = .error e → (∃ v, u = .ok v) →
        (bindInvoke u a flag).2 = .error (.fromAction e))
    ∧ (∀ w, a = .ok w → (∃ v, u = .ok v) → (bindInvoke u a flag).2 = .ok w) := by
  cases u with
  | error eu =>
      cases flag with
      | false =>
          refine ⟨rfl, ?_, by simp [bindInvoke], by simp, ?_, ?_⟩
          · rintro ⟨v, hv⟩; cases hv
          · rintro e he ⟨v, hv⟩; cases hv
          · rintro w hw ⟨v, hv⟩; cases hv
      | true =>
          refine ⟨rfl, ?_, by simp [bindInvoke], by simp [bindInvoke], ?_, ?_⟩
          · rintro ⟨v, hv⟩; cases hv
          · rintro e he ⟨v, hv⟩; cases hv
          · rintro w hw ⟨v, hv⟩; cases hv
  | ok vu =>
      cases flag with
      | false =>
          refine ⟨rfl, fun _ => rfl, by simp [bindInvoke], by simp, ?_, ?_⟩
          · rintro e he -; subst he; simp [bindInvoke]
          · rintro w hw -; subst hw; simp [bindInvoke]
      | true =>
          refine ⟨rfl, fun _ => rfl, by simp [bindInvoke], by simp [bindInvoke], ?_, ?_⟩
          · rintro e he -; subst he; simp [bindInvoke]
          · rintro w hw -; subst hw; simp [bindInvoke]

/-- Witness for C5: with releaseOnComplete set and a failing action, the
call trace is use, action, release and the original failure surfaces
unchanged. -/
theorem bindReleaseIffFlag_witness :
    (bindInvoke (ε := String) (β := Nat) (.ok true) (.error "bad") true).2
        = .error (.fromAction "bad")
    ∧ ((bindInvoke (ε := String) (β := Nat) (.ok true) (.error "bad") true).1.getLast?
        = some BindEvent.releaseCall) :=
  ⟨(bindReleaseIffFlag (ε := String) (β := Nat) (.ok true) (.error "bad") true).2.2.2.2.1
      "bad" rfl ⟨true, rfl⟩,
   (bindReleaseIffFlag (ε := String) (β := Nat) (.ok true) (.error "bad") true).2.2.2.1 rfl⟩

/-- Claim C6: release() is idempotent — removing an absent membership
record is a no-op that still resolves true, so two consecutive calls both
succeed and the second leaves the store where the first put it — and it
resets the local deadline to 0 whether or not the record existed. -/
theorem releaseIdempotent (store : ZSet) (uuid : String) (st : PBState) :
    (release store uuid st).result = true
    ∧ (release (release store uuid st).store uuid
        (release store uuid st).state).result = true
    ∧ (release (release store uuid st).store uuid
        (release store uuid st).state).store = (release store uuid st).store
    ∧ (release store uuid st).state.isHeldUntil = 0
    ∧ (hasMember store uuid = false → (release store uuid st).store = store) := by
  refine ⟨rfl, rfl, ?_, rfl, ?_⟩
  · simp only [release]
    exact zrem_zrem_self store uuid
  · intro habs
    simp only [release]
    exact zrem_of_not_hasMember store uuid habs

/-- Witness for C6: releasing a membership that is absent from the store
leaves the store untouched and still succeeds. -/
theorem releaseIdempotent_witness :
    (release [("x", 5)] "me" ⟨9⟩).result = true
    ∧ (release [("x", 5)] "me" ⟨9⟩).store = [("x", 5)] :=
  ⟨(releaseIdempotent [("x", 5)] "me" ⟨9⟩).1,
    (releaseIdempotent [("x", 5)] "me" ⟨9⟩).2.2.2.2 (by decide)⟩

/-- Claim C9, counterexample: the constructor performs no validation at
all — it is a total function with no failure path, so no
ConfigurationError-style fail-fast exists — and an explicitly supplied
maxAttempts = 0 is NOT used as given: the JavaScript || defaulting
replaces the falsy 0 with the default 5. -/
theorem constructValidates_cex :
    (construct { maxAttempts := some 0 }).maxAttempts = 5 ∧ (5 : Int) ≠ 0 := by
  constructor
  · rfl
  · decide

/-- Claim C9 as amended: construction never raises; each option is
combined with its default through JavaScript ||, so omitted AND falsy
values (the number 0, the empty string) get the documented defaults —
in particular an explicit maxAttempts = 0 becomes 5 — while any truthy
value, valid or not (a negative capacity included), is kept as given. -/
theorem constructDefaulting (o : PBOptions) :
    (o.maxAttempts = some 0 → (construct o).maxAttempts = 5)
    ∧ (o.maxAttempts = none → (construct o).maxAttempts = 5)
    ∧ (∀ x : Int, x ≠ 0 → o.maxAttempts = some x → (construct o).maxAttempts = x)
    ∧ (o.capacity = some 0 → (construct o).capacity = 10)
    ∧ (o.capacity = none → (construct o).capacity = 10)
    ∧ (∀ x : Int, x ≠ 0 → o.capacity = some x → (construct o).capacity = x)
    ∧ (o.TTL = none → (construct o).TTL = 5000)
    ∧ (o.retryInterval = none → (construct o).retryInterval = 500)
    ∧ (o.keyPfx = none → (construct o).keyPfx = "passbuddy")
    ∧ (o.name = none → (construct o).name = "semaphore")
    ∧ (o.name = some "" → (construct o).name = "semaphore")
    ∧ (∀ v : String, v ≠ "" → o.name = some v → (construct o).name = v) := by
  refine ⟨?_, ?_, ?_, ?_, ?_, ?_, ?_, ?_, ?_, ?_, ?_, ?_⟩ <;>
    simp only [construct, jsOrNum, jsOrStr]
  · intro h; rw [h]; rfl
  · intro h; rw [h]
  · intro x hx h; rw [h]; simp [hx]
  · intro h; rw [h]; rfl
  · intro h; rw [h]
  · intro x hx h; rw [h]; simp [hx]
  · intro h; rw [h]
  · intro h; rw [h]
  · intro h; rw [h]
  · intro h; rw [h]
  · intro h; rw [h]; rfl
  · intro v hv h; rw [h]; simp [hv]

/-- Witness for the amended C9: a record supplying maxAttempts = 0, a
negative capacity and an empty name yields 5, -3 and the default name. -/
theorem constructDefaulting_witness :
    (construct { maxAttempts := some 0, capacity := some (-3), name := some "" }).maxAttempts = 5
    ∧ (construct { maxAttempts := some 0, capacity := some (-3), name := some "" }).capacity = -3
    ∧ (construct { maxAttempts := some 0, capacity := some (-3), name := some "" }).name
        = "semaphore" :=
  ⟨(constructDefaulting { maxAttempts := some 0, capacity := some (-3), name := some "" }).1 rfl,
   (constructDefaulting
      { maxAttempts := some 0, capacity := some (-3), name := some "" }).2.2.2.2.2.1
      (-3) (by decide) rfl,
   (constructDefaulting
      { maxAttempts := some 0, capacity := some (-3), name := some "" }).2.2.2.2.2.2.2.2.2.2.1 rfl⟩

end PassBuddy
